import Mathlib

/-!
Verification development for the garmin-to-notion synchronization scripts.

The Python sources `daily-steps.py` and `sleep_data.py` are shallowly
embedded below.  Python/JSON values are modelled by `PyVal` (Python
booleans are numbers in Python's own data model and are modelled as
`PyVal.num`; dict equality is compared as an ordered association list,
which coincides with Python's semantics on every comparison performed in
this development, all of which are cross-kind or on scalars).  Machine
floats are modelled as rationals: every numeric value handled by the
scripts (step counts, seconds, distances in base units) is carried
exactly by the sources, and Python `round` is round-half-to-even, which
is `pyRoundTE` below.  Fallible Python operations (attribute errors, key
errors, `sys.exit`) are modelled with `Except String`.
-/

namespace GarminNotion

/-- A Python/JSON value as handled by the scripts. -/
inductive PyVal where
  | none : PyVal
  | num : ℚ → PyVal
  | str : String → PyVal
  | list : List PyVal → PyVal
  | dict : List (String × PyVal) → PyVal
deriving Repr

/-- Python `==` on values (structural; dicts compared as ordered pairs). -/
def pyEqB : PyVal → PyVal → Bool
  | .none, .none => true
  | .num a, .num b => a == b
  | .str a, .str b => a == b
  | .list [], .list [] => true
  | .list (a :: as), .list (b :: bs) => pyEqB a b && pyEqB (.list as) (.list bs)
  | .dict [], .dict [] => true
  | .dict ((k, a) :: as), .dict ((k2, b) :: bs) =>
      k == k2 && pyEqB a b && pyEqB (.dict as) (.dict bs)
  | _, _ => false

/-- Python truthiness. -/
def pyTruthy : PyVal → Bool
  | .none => false
  | .num q => q != 0
  | .str s => s != ""
  | .list xs => !xs.isEmpty
  | .dict kvs => !kvs.isEmpty

/-- Python `a or b` (short-circuiting value selection). -/
def pyOr (a b : PyVal) : PyVal :=
  if pyTruthy a then a else b

/-- `d.get(k)` on a value known to be a dict (returns `None` if absent). -/
def pyGetD : PyVal → String → PyVal
  | .dict kvs, k => (((kvs.find? fun kv => kv.1 == k).map Prod.snd).getD .none)
  | _, _ => .none

/-- `d.get(k)`, raising `AttributeError` when the receiver is not a dict. -/
def pyGetE : PyVal → String → Except String PyVal
  | .dict kvs, k => .ok (((kvs.find? fun kv => kv.1 == k).map Prod.snd).getD .none)
  | _, _ => .error "AttributeError"

/-- `d[k]`: `KeyError` when absent, `TypeError` when not a dict. -/
def pySubscr : PyVal → String → Except String PyVal
  | .dict kvs, k =>
      match kvs.find? fun kv => kv.1 == k with
      | some kv => .ok kv.2
      | Option.none => .error "KeyError"
  | _, _ => .error "TypeError"

/-- `isinstance(v, dict)`. -/
def isDict : PyVal → Bool
  | .dict _ => true
  | _ => false

/-- `isinstance(v, (int, float))` (Python `bool` is an `int` and is
modelled as a number). -/
def isNum : PyVal → Bool
  | .num _ => true
  | _ => false

/-- `v is None`. -/
def isNone : PyVal → Bool
  | .none => true
  | _ => false

/-- Numeric payload of a value; only applied behind an `isNum` guard. -/
def toNum : PyVal → ℚ
  | .num q => q
  | _ => 0

/-- Multiplication on `ℚ` through the smart constructor `Rat.divInt`
(the Batteries field operations are `@[irreducible]`, which blocks
kernel evaluation of concrete instances; `qmul_eq_mul` below proves this
is ordinary multiplication). -/
def qmul (a b : ℚ) : ℚ :=
  Rat.divInt (a.num * b.num) (a.den * b.den)

/-- Division on `ℚ` through `Rat.divInt`; `qdiv_eq_div` below proves
this is ordinary division (with `q / 0 = 0` as usual). -/
def qdiv (a b : ℚ) : ℚ :=
  Rat.divInt (a.num * b.den) (a.den * b.num)

/-- Python `round(q)`: round half to even, computed on the numerator and
denominator (`q.num.ediv q.den` is `⌊q⌋` and `q.num.emod q.den` over
`q.den` is the fractional part, since `q.den > 0`); `pyRoundTE_eq` below
proves this equal to the textbook floor/fraction formulation. -/
def pyRoundTE (q : ℚ) : ℤ :=
  let n := q.num.ediv q.den
  let r := q.num.emod q.den
  if 2 * r < (q.den : ℤ) then n
  else if (q.den : ℤ) < 2 * r then n + 1
  else if n % 2 = 0 then n else n + 1

/-- Python `round(q, 2)`: `round(q * 100) / 100`. -/
def pyRound2 (q : ℚ) : ℚ :=
  Rat.divInt (pyRoundTE (qmul q 100)) 100

/-- Python `float(v)`; numeric strings are not modelled (no payload in
this development carries one). -/
def pyFloat (v : PyVal) : Except String ℚ :=
  match v with
  | .num q => .ok q
  | _ => .error "TypeError"

/-! ## Notion schema and property model (`sleep_data.py`) -/

/-- Declared type of a Notion database column (`val.get("type")`). -/
inductive PType where
  | title : PType
  | date : PType
  | number : PType
  | other : PType
deriving DecidableEq, Repr

/-- A database's `properties` dict: ordered column name/type pairs
(Python dicts preserve insertion order and have unique keys). -/
abbrev Schema := List (String × PType)

/-- `name in db_props` (the script's `has_prop`). -/
def hasProp (db : Schema) (k : String) : Bool :=
  db.any fun kv => kv.1 == k

/-- A Notion property value as written by the scripts. -/
inductive NVal where
  | num : ℚ → NVal
  | date : String → NVal
  | title : String → NVal
deriving DecidableEq, Repr

/-- An ordered property-name/value dictionary (a write payload, or the
stored properties of a page). -/
abbrev Props := List (String × NVal)

def lookupProp (ps : Props) (k : String) : Option NVal :=
  (ps.find? fun kv => kv.1 == k).map Prod.snd

def hasKey (ps : Props) (k : String) : Bool :=
  ps.any fun kv => kv.1 == k

/-- Python dict assignment `ps[k] = v`: replace in place if the key
exists, else append. -/
def setProp (ps : Props) (k : String) (v : NVal) : Props :=
  if ps.any fun kv => kv.1 == k then
    ps.map fun kv => if kv.1 == k then (kv.1, v) else kv
  else ps ++ [(k, v)]

/-- Guarded dict assignment (the `if has_prop(...): props[...] = ...`
pattern of `sleep_data.py`). -/
def addIf (c : Bool) (k : String) (v : NVal) (ps : Props) : Props :=
  if c then setProp ps k v else ps

/-- Python `\x7b**stored, **payload\x7d`, which is also how a Notion
`pages.update` merges a property payload into the stored properties:
stored keys keep their position with payload values taking precedence,
then payload-only keys follow in payload order. -/
def updProps (stored payload : Props) : Props :=
  (stored.map fun kv =>
    match payload.find? fun kv2 => kv2.1 == kv.1 with
    | some kv2 => (kv.1, kv2.2)
    | Option.none => kv) ++
  payload.filter fun kv2 => !(stored.any fun kv => kv.1 == kv2.1)

/-! ## `sleep_data.py` schema resolution -/

/-- `find_title_prop` (sleep_data.py:89-94): first column whose declared
type is `"title"`, else the fallback name `"Name"`. -/
def find_title_prop : Schema → String
  | [] => "Name"
  | (k, PType.title) :: _ => k
  | _ :: rest => find_title_prop rest

/-- Helper loop of `find_date_prop`: first date-typed column. -/
def findFirstDate : Schema → Option String
  | [] => Option.none
  | (k, PType.date) :: _ => some k
  | _ :: rest => findFirstDate rest

/-- `find_date_prop` (sleep_data.py:96-103): the column literally named
`"Date"` when date-typed, else the first date-typed column, else `None`. -/
def find_date_prop (props : Schema) : Option String :=
  match props.find? fun kv => kv.1 == "Date" with
  | some (_, PType.date) => some "Date"
  | _ => findFirstDate props

/-! ## `sleep_data.py` field mapping -/

/-- `to_minutes` (sleep_data.py:121-122): `round((seconds or 0) / 60)`;
a truthy non-numeric argument would raise in Python. -/
def to_minutes (seconds : PyVal) : Except String ℤ :=
  match pyOr seconds (.num 0) with
  | .num q => .ok (pyRoundTE (qdiv q 60))
  | _ => .error "TypeError"

/-- `s.rstrip("Z")`. -/
def dropTrailingZ (s : String) : String :=
  ⟨(s.data.reverse.dropWhile fun c => c == 'Z').reverse⟩

/-- The string body of `to_iso_z` (sleep_data.py:128-131). -/
def stripIsoZ (s : String) : String :=
  let s1 := dropTrailingZ s
  let s2 := if s1.contains '.' then (s1.splitOn ".").headD s1 else s1
  s2 ++ "Z"

/-- `to_iso_z` (sleep_data.py:124-131): falsy input gives `None`; a
truthy non-string would raise `AttributeError` in Python. -/
def to_iso_z (v : PyVal) : Except String (Option String) :=
  if pyTruthy v then
    match v with
    | .str s => .ok (some (stripIsoZ s))
    | _ => .error "AttributeError"
  else .ok Option.none

/-- `daily = (sleep.get("dailySleepDTO") or \x7b\x7d) if isinstance(sleep, dict)
else \x7b\x7d`, applied to `sleep = <payload> or \x7b\x7d` (sleep_data.py:172,178). -/
def dailyOf (sleepPayload : PyVal) : PyVal :=
  let sleep := pyOr sleepPayload (.dict [])
  if isDict sleep then pyOr (pyGetD sleep "dailySleepDTO") (.dict []) else .dict []

/-- The `daily.get(primary) or daily.get(fallback)` alias pattern
(sleep_data.py:180,187,188), with Python's evaluation order: the
fallback is read only when the primary value is falsy. -/
def selAlias (daily : PyVal) (primary fallback : String) : Except String PyVal :=
  match pyGetE daily primary with
  | .error e => .error e
  | .ok v1 => if pyTruthy v1 then .ok v1 else pyGetE daily fallback

/-- The `for k in (...)` probing loops of the HRV extraction
(sleep_data.py:194-198, 200-204): first numeric candidate, rounded. -/
def firstNumeric (d : PyVal) : List String → Option ℚ
  | [] => Option.none
  | k :: ks =>
      let v := pyGetD d k
      if isNum v then some (pyRound2 (toNum v)) else firstNumeric d ks

/-- HRV nightly-average extraction (sleep_data.py:190-204). The
subscript `hrv["hrvSummary"]` is the one fallible operation; it is
guarded by the `isinstance(hrv.get("hrvSummary"), dict)` test. -/
def hrvNightly (hrv : PyVal) : Except String (Option ℚ) :=
  if isDict hrv then
    if isDict (pyGetD hrv "hrvSummary") then
      match pySubscr hrv "hrvSummary" with
      | .error e => .error e
      | .ok hs => .ok (firstNumeric hs ["lastNightAvg", "avg", "average"])
    else
      .ok (firstNumeric hrv ["lastNightAvg", "avg", "hrvValue", "average"])
  else .ok Option.none

/-- The values extracted from the sleep and HRV payloads by
sleep_data.py:180-204, in source order. -/
structure SleepVals where
  total_min : ℤ
  deep_min : ℤ
  rem_min : ℤ
  light_min : ℤ
  awake_min : ℤ
  score : PyVal
  efficiency : PyVal
  bedtime_iso : Option String
  waketime_iso : Option String
  hrv_nightly : Option ℚ
deriving Repr

/-- Lines 178-204 of `sleep_data.py`: extract all mapped values from the
raw sleep and HRV payloads. -/
def extractSleep (sleepPayload hrvPayload : PyVal) : Except String SleepVals := do
  let daily := dailyOf sleepPayload
  let total_min ← to_minutes (← selAlias daily "sleepTimeSeconds" "durationInSeconds")
  let deep_min ← to_minutes (← pyGetE daily "deepSleepSeconds")
  let rem_min ← to_minutes (← pyGetE daily "remSleepSeconds")
  let light_min ← to_minutes (← pyGetE daily "lightSleepSeconds")
  let awake_min ← to_minutes (← pyGetE daily "awakeSleepSeconds")
  let score ← pyGetE daily "sleepScore"
  let efficiency ← pyGetE daily "sleepEfficiency"
  let bedtime_iso ← to_iso_z (← selAlias daily "sleepStartTimestampGMT" "startTimeGMT")
  let waketime_iso ← to_iso_z (← selAlias daily "sleepEndTimestampGMT" "endTimeGMT")
  let hrv_nightly ← hrvNightly hrvPayload
  pure ⟨total_min, deep_min, rem_min, light_min, awake_min, score, efficiency,
        bedtime_iso, waketime_iso, hrv_nightly⟩

/-- An optional rational as the Python value it came from. -/
def optPy : Option ℚ → PyVal
  | Option.none => .none
  | some q => .num q

/-- Python truthiness of an optional string (`None` and `""` are
falsy). -/
def optStrTruthy : Option String → Bool
  | Option.none => false
  | some s => s != ""

/-- One guarded property write of the payload-assembly block
(sleep_data.py:211-225): a guard (`has_prop(k)` possibly conjoined with
a value test), the column written, and the value — which may raise
(e.g. `float(score)` on a non-number), but is only evaluated behind its
guard, as in the source. -/
structure WriteStep where
  guard : Bool
  key : String
  val : Except String NVal

/-- Perform one guarded write: skip when the guard is false, otherwise
evaluate the value and assign it. -/
def applyStep (ps : Props) (st : WriteStep) : Except String Props :=
  if st.guard then
    match st.val with
    | .ok v => .ok (setProp ps st.key v)
    | .error e => .error e
  else .ok ps

/-- Perform the guarded writes in order; the first raised error
propagates. -/
def applySteps : Props → List WriteStep → Except String Props
  | ps, [] => .ok ps
  | ps, st :: rest =>
      match applyStep ps st with
      | .error e => .error e
      | .ok ps2 => applySteps ps2 rest

/-- The ten guarded metric writes of sleep_data.py:211-225, in source
order. -/
def sleepWriteSteps (db : Schema) (v : SleepVals) : List WriteStep :=
  [⟨hasProp db "Total (min)", "Total (min)", .ok (.num (v.total_min : ℚ))⟩,
   ⟨hasProp db "Deep (min)", "Deep (min)", .ok (.num (v.deep_min : ℚ))⟩,
   ⟨hasProp db "REM (min)", "REM (min)", .ok (.num (v.rem_min : ℚ))⟩,
   ⟨hasProp db "Light (min)", "Light (min)", .ok (.num (v.light_min : ℚ))⟩,
   ⟨hasProp db "Awake (min)", "Awake (min)", .ok (.num (v.awake_min : ℚ))⟩,
   ⟨hasProp db "Score" && !(isNone v.score), "Score", (pyFloat v.score).map NVal.num⟩,
   ⟨hasProp db "Efficiency (%)" && !(isNone v.efficiency), "Efficiency (%)",
     (pyFloat v.efficiency).map NVal.num⟩,
   ⟨hasProp db "Bedtime" && optStrTruthy v.bedtime_iso, "Bedtime",
     .ok (.date (v.bedtime_iso.getD ""))⟩,
   ⟨hasProp db "Wake time" && optStrTruthy v.waketime_iso, "Wake time",
     .ok (.date (v.waketime_iso.getD ""))⟩,
   ⟨hasProp db "HRV (ms)" && v.hrv_nightly.isSome, "HRV (ms)",
     (pyFloat (optPy v.hrv_nightly)).map NVal.num⟩]

/-- Lines 210-225 of `sleep_data.py`: start from
`\x7bdate_prop: \x7b"date": \x7b"start": target_str\x7d\x7d\x7d` and perform the guarded
metric writes in order. -/
def assembleProps (db : Schema) (dp target : String) (v : SleepVals) : Except String Props :=
  applySteps [(dp, NVal.date target)] (sleepWriteSteps db v)

/-- The fixed catalog of metric column names the sleep mapper can write
(besides the resolved date column). -/
def sleepMetricKeys : List String :=
  ["Total (min)", "Deep (min)", "REM (min)", "Light (min)", "Awake (min)",
   "Score", "Efficiency (%)", "Bedtime", "Wake time", "HRV (ms)"]

/-- The mapping pipeline of `sleep_data.py`'s `main` (lines 141-149 and
178-225): resolve the date column (fatal `sys.exit` when none exists,
modelled as `Except.error`), then extract and assemble the payload. -/
def mapSleep (db : Schema) (target : String) (sleepPayload hrvPayload : PyVal) :
    Except String Props :=
  match find_date_prop db with
  | Option.none => .error "ERROR: No Date property found in your Sleep database."
  | some dp =>
      match extractSleep sleepPayload hrvPayload with
      | .error e => .error e
      | .ok v => assembleProps db dp target v

/-! ## `sleep_data.py` upsert (lines 105-112, 227-238) -/

/-- A page of the sleep database: opaque id, optional icon, stored
properties. -/
structure SleepPage where
  id : ℕ
  icon : Option String
  props : Props
deriving Repr

/-- `query_by_date` (sleep_data.py:105-112): first page whose date
property equals the target date (`page_size=1`). -/
def query_by_date (db : List SleepPage) (dp target : String) : Option ℕ :=
  (db.find? fun p => decide (lookupProp p.props dp = some (NVal.date target))).map SleepPage.id

/-- `notion.pages.update(page_id=..., properties=...)`: merge the
payload into the matching page; the call passes no icon, so `newIcon`
is `none` at the script's call site and the stored icon is kept. -/
def pagesUpdate (db : List SleepPage) (pid : ℕ) (payload : Props) (newIcon : Option String) :
    List SleepPage :=
  db.map fun p =>
    if p.id == pid then
      { p with props := updProps p.props payload,
               icon := newIcon.orElse fun _ => p.icon }
    else p

/-- `notion.pages.create(parent=..., properties=..., icon=...)`. -/
def pagesCreate (db : List SleepPage) (newId : ℕ) (payload : Props) (icon : Option String) :
    List SleepPage :=
  db ++ [{ id := newId, icon := icon, props := payload }]

inductive SyncAction where
  | created : SyncAction
  | updated : SyncAction
  | skipped : SyncAction
deriving DecidableEq, Repr

/-- The sleep upsert (sleep_data.py:227-238): update when a page for the
date exists, else create with the synthesized title
(`properties=\x7btitle_prop: ...\x7d | props`) and the emoji icon. -/
def syncSleep (db : List SleepPage) (title_prop dp target : String) (props : Props)
    (newId : ℕ) : List SleepPage × SyncAction :=
  match query_by_date db dp target with
  | some pid => (pagesUpdate db pid props Option.none, .updated)
  | Option.none =>
      (pagesCreate db newId
        (updProps [(title_prop, NVal.title ("Sleep " ++ target))] props) (some "😴"),
       .created)

/-! ## `daily-steps.py` -/

/-- The fields of a Garmin daily-steps entry read by the script
(absent or JSON-null fields are `none`). -/
structure StepsRec where
  calendarDate : Option String
  totalSteps : Option ℚ
  stepGoal : Option ℚ
  totalDistance : Option ℚ
deriving DecidableEq, Repr

/-- A page of the steps database.  Pages of this database carry the four
columns the script reads (`Total Steps`, `Step Goal`,
`Total Distance (km)`, `Date`) plus the `Activity Type` title property,
whose stored value is a rich-text array; rich-text items are abbreviated
to their plain-text content strings. -/
structure StepsPage where
  id : ℕ
  date : Option String
  activityTitle : PyVal
  totalSteps : Option ℚ
  stepGoal : Option ℚ
  distanceKm : Option ℚ
deriving Repr

/-- Plain-text rendering of a stored title value, which is what the
Notion `title equals` filter compares against. -/
def plainText : PyVal → String
  | .list xs => String.join (xs.map fun v => match v with | .str s => s | _ => "")
  | _ => ""

/-- The query filter of `daily_steps_exist` for a given date and
activity-type text, as one predicate. -/
def stepsKeyP (d : Option String) (t : String) (p : StepsPage) : Bool :=
  (p.date == d) && (plainText p.activityTitle == t)

/-- `daily_steps_exist` (daily-steps.py:73-87): first page whose `Date`
equals the entry's date and whose `Activity Type` title equals
`"Walking"`. -/
def daily_steps_exist (db : List StepsPage) (activity_date : Option String) :
    Option StepsPage :=
  db.find? (stepsKeyP activity_date "Walking")

/-- `steps_need_update` (daily-steps.py:89-101), field for field:
the stored numbers against the raw entry values, and the stored
`Activity Type` rich-text value against the plain string `"Walking"`
(Python `!=` between a list and a string). -/
def steps_need_update (existing : StepsPage) (new : StepsRec) : Bool :=
  (existing.totalSteps != new.totalSteps) ||
  (existing.stepGoal != new.stepGoal) ||
  (existing.distanceKm != new.totalDistance) ||
  !(pyEqB existing.activityTitle (.str "Walking"))

/-- The distance written by both write paths (daily-steps.py:107-114 and
128-136): `None` defaults to `0`, divide by `1000`, `round(_, 2)`. -/
def mappedDistanceKm (d : Option ℚ) : ℚ :=
  pyRound2 (qdiv (d.getD 0) 1000)

/-- `update_daily_steps` (daily-steps.py:103-122): rewrite the four
property values of the page with the given id; `Date` is not part of the
payload and is unchanged. -/
def update_daily_steps (db : List StepsPage) (pid : ℕ) (new : StepsRec) :
    List StepsPage :=
  db.map fun p =>
    if p.id == pid then
      { p with activityTitle := .list [.str "Walking"],
               totalSteps := new.totalSteps,
               stepGoal := new.stepGoal,
               distanceKm := some (mappedDistanceKm new.totalDistance) }
    else p

/-- `create_daily_steps` (daily-steps.py:124-144). -/
def create_daily_steps (db : List StepsPage) (newId : ℕ) (rec : StepsRec) :
    List StepsPage :=
  db ++ [{ id := newId, date := rec.calendarDate,
           activityTitle := .list [.str "Walking"],
           totalSteps := rec.totalSteps, stepGoal := rec.stepGoal,
           distanceKm := some (mappedDistanceKm rec.totalDistance) }]

/-- Failure injection for the three Notion calls the per-date loop makes
(the destination adapter may raise `APIResponseError` on any call). -/
structure NotionEnv where
  queryFails : Option String → Bool
  updateFails : Option String → Bool
  createFails : Option String → Bool

/-- The environment in which every destination call succeeds. -/
def okEnv : NotionEnv := ⟨fun _ => false, fun _ => false, fun _ => false⟩

/-- One iteration of the loop in `main` (daily-steps.py:161-168):
lookup, then update-if-drifted or create.  A raised `APIResponseError`
is an `Except.error`. -/
def processSteps (env : NotionEnv) (rec : StepsRec) (newId : ℕ) (db : List StepsPage) :
    Except String (List StepsPage × SyncAction) :=
  if env.queryFails rec.calendarDate then .error "APIResponseError" else
  match daily_steps_exist db rec.calendarDate with
  | some p =>
      if steps_need_update p rec then
        if env.updateFails rec.calendarDate then .error "APIResponseError"
        else .ok (update_daily_steps db p.id rec, .updated)
      else .ok (db, .skipped)
  | Option.none =>
      if env.createFails rec.calendarDate then .error "APIResponseError"
      else .ok (create_daily_steps db newId rec, .created)

/-- The `for steps in daily_steps:` loop of `main`
(daily-steps.py:160-168).  The loop body contains no `try`/`except`, so
the first exception propagates out of `main`: the run stops with the
state reached so far and the remaining entries are not processed. -/
def runSteps (env : NotionEnv) :
    List (StepsRec × ℕ) → List StepsPage → List StepsPage × Option String
  | [], db => (db, Option.none)
  | (rec, nid) :: rest, db =>
      match processSteps env rec nid db with
      | .error e => (db, some e)
      | .ok (db2, _) => runSteps env rest db2

/-! ## Concrete instances used in counterexamples and witnesses -/

/-- The `standard_props` sleep schema of sleep_data.py:152-164. -/
def stdSchema : Schema :=
  [("Date", .date), ("Score", .number), ("Efficiency (%)", .number),
   ("Total (min)", .number), ("Deep (min)", .number), ("REM (min)", .number),
   ("Light (min)", .number), ("Awake (min)", .number), ("Bedtime", .date),
   ("Wake time", .date), ("HRV (ms)", .number)]

/-- A Garmin steps entry: 2024-03-01, 8000 steps, goal 10000, distance
1234.5 base units (= 2469/2). -/
def recA : StepsRec := ⟨some "2024-03-01", some 8000, some 10000, some (mkRat 2469 2)⟩

/-- The steps database after syncing `recA` into an empty database. -/
def dbA : List StepsPage := create_daily_steps [] 0 recA

/-- A stored steps page holding exactly the values the mapper produces
for `recA`: `Total Distance (km)` is `round(1234.5 / 1000, 2) = 1.23`
and the title is the rich-text list `["Walking"]`. -/
def pageA : StepsPage :=
  ⟨0, some "2024-03-01", .list [.str "Walking"], some 8000, some 10000, some (mkRat 123 100)⟩

/-- An environment where the create call raises for 2024-03-01 and every
other destination call succeeds. -/
def envFail : NotionEnv := ⟨fun _ => false, fun _ => false, fun d => d == some "2024-03-01"⟩

/-- Steps entries for two consecutive dates. -/
def recB1 : StepsRec := ⟨some "2024-03-01", some 100, some 100, some 0⟩

def recB2 : StepsRec := ⟨some "2024-03-02", some 200, some 100, some 0⟩

/-- A `dailySleepDTO` payload carrying both the primary field
`sleepTimeSeconds` (value `0`) and its fallback alias
`durationInSeconds` (value `3600`). -/
def dailyC4 : PyVal :=
  .dict [("sleepTimeSeconds", .num 0), ("durationInSeconds", .num 3600)]

/-- The uniqueness invariant on the steps database: page ids are unique,
and at most one page exists per (date, activity-type plain text) pair —
the (container, date, record-kind) key of the steps sync. -/
def StepsInv (db : List StepsPage) : Prop :=
  (db.map StepsPage.id).Nodup ∧ ∀ d t, (db.countP fun p => stepsKeyP d t p) ≤ 1

/-- The uniqueness invariant on the sleep database for a given date
column: page ids are unique, and at most one page exists per stored
date value. -/
def SleepInv (dp : String) (db : List SleepPage) : Prop :=
  (db.map SleepPage.id).Nodup
  ∧ ∀ t, (db.countP fun p => decide (lookupProp p.props dp = some (NVal.date t))) ≤ 1

/-! # Theorems

First, the bridging lemmas showing the kernel-computable arithmetic
above is the standard field arithmetic of `ℚ`. -/

theorem qmul_eq_mul (a b : ℚ) : qmul a b = a * b := by
  rw [qmul, Rat.divInt_eq_div]
  push_cast
  rw [← div_mul_div_comm, Rat.num_div_den, Rat.num_div_den]

theorem qdiv_eq_div (a b : ℚ) : qdiv a b = a / b := by
  rw [qdiv, Rat.divInt_eq_div]
  rcases eq_or_ne b 0 with hb | hb
  · subst hb; simp
  · have hbn : (b.num : ℚ) ≠ 0 := by exact_mod_cast Rat.num_ne_zero.mpr hb
    have had : (a.den : ℚ) ≠ 0 := by exact_mod_cast a.den_ne_zero
    have hbd : (b.den : ℚ) ≠ 0 := by exact_mod_cast b.den_ne_zero
    conv_rhs => rw [← Rat.num_div_den a, ← Rat.num_div_den b]
    push_cast
    field_simp

/-- `pyRoundTE` is round-half-to-even: floor when the fractional part is
below one half, ceiling when above, and the even neighbour at a tie. -/
theorem pyRoundTE_eq (q : ℚ) :
    pyRoundTE q =
      if q - ⌊q⌋ < 1/2 then ⌊q⌋
      else if 1/2 < q - ⌊q⌋ then ⌊q⌋ + 1
      else if Even ⌊q⌋ then ⌊q⌋ else ⌊q⌋ + 1 := by
  have hn : q.num.ediv q.den = ⌊q⌋ := Rat.floor_def.symm
  have hden : (0 : ℚ) < (q.den : ℚ) := by exact_mod_cast q.den_pos
  have hemod : (q.num.emod q.den : ℚ) = (q.num : ℚ) - (q.den : ℚ) * (⌊q⌋ : ℚ) := by
    have hz : q.num.emod q.den = q.num - (q.den : ℤ) * (q.num.ediv q.den) :=
      Int.emod_def q.num q.den
    rw [hz, hn]
    push_cast
    ring
  have hfr : q - (⌊q⌋ : ℚ) = (q.num.emod q.den : ℚ) / (q.den : ℚ) := by
    rw [hemod, sub_div, Rat.num_div_den, mul_div_cancel_left₀ _ (ne_of_gt hden)]
  have h1 : (2 * q.num.emod q.den < (q.den : ℤ)) ↔ q - (⌊q⌋ : ℚ) < 1/2 := by
    rw [hfr, div_lt_div_iff₀ hden two_pos, one_mul]
    rw [show (q.num.emod q.den : ℚ) * 2 = ((2 * q.num.emod q.den : ℤ) : ℚ) by push_cast; ring]
    rw [show ((q.den : ℕ) : ℚ) = (((q.den : ℕ) : ℤ) : ℚ) by push_cast; rfl]
    exact Int.cast_lt.symm
  have h2 : ((q.den : ℤ) < 2 * q.num.emod q.den) ↔ (1/2 : ℚ) < q - (⌊q⌋ : ℚ) := by
    rw [hfr, div_lt_div_iff₀ two_pos hden, one_mul]
    rw [show (q.num.emod q.den : ℚ) * 2 = ((2 * q.num.emod q.den : ℤ) : ℚ) by push_cast; ring]
    rw [show ((q.den : ℕ) : ℚ) = (((q.den : ℕ) : ℤ) : ℚ) by push_cast; rfl]
    exact Int.cast_lt.symm
  have h3 : (⌊q⌋ % 2 = 0) ↔ Even ⌊q⌋ := Int.even_iff.symm
  unfold pyRoundTE
  simp only [hn, h1, h2, h3]

/-- Helper: when `d.get(k)` on a dict yields a dict, the subscript
`d[k]` succeeds with that same dict. -/
theorem pySubscr_of_pyGetD_dict (kvs hs : List (String × PyVal)) (k : String)
    (h : pyGetD (.dict kvs) k = .dict hs) : pySubscr (.dict kvs) k = .ok (.dict hs) := by
  simp only [pyGetD] at h
  simp only [pySubscr]
  cases hfind : kvs.find? fun kv => kv.1 == k with
  | none => rw [hfind] at h; simp at h
  | some kv =>
      rw [hfind] at h
      simp at h
      show Except.ok kv.2 = Except.ok (PyVal.dict hs)
      rw [h]

/-- C6: numeric normalization is pinned.  A distance of `1234.5`
(`2469/2`) base units is stored as `1.23` (`123/100`) km by the create
path; a missing distance is stored as `0`; `to_minutes` converts `90`
seconds to `2` minutes (rounding, not truncation) and a missing duration
to `0` minutes. -/
theorem c6_numeric_normalization :
    (create_daily_steps [] 0 recA).map StepsPage.distanceKm = [some (mkRat 123 100)]
    ∧ (create_daily_steps [] 0 ⟨some "2024-03-01", some 8000, some 10000, Option.none⟩).map
        StepsPage.distanceKm = [some 0]
    ∧ to_minutes (.num 90) = .ok 2
    ∧ to_minutes PyVal.none = .ok 0 :=
  ⟨rfl, rfl, rfl, rfl⟩

/-- C2 (falsified by the code): `pageA` stores exactly the mapped values
of `recA` — equal step totals and goal, the distance stored as the
mapped `1.23` km, and the `Walking` title — yet `steps_need_update`
still returns `true`, because the source compares the stored kilometre
number against the raw base-unit distance and compares the rich-text
title list against a plain string. -/
theorem c2_detector_fires_on_unchanged_data :
    pageA.totalSteps = recA.totalSteps
    ∧ pageA.stepGoal = recA.stepGoal
    ∧ pageA.distanceKm = some (mappedDistanceKm recA.totalDistance)
    ∧ plainText pageA.activityTitle = "Walking"
    ∧ steps_need_update pageA recA = true :=
  ⟨rfl, rfl, by decide, rfl, by rfl⟩

/-- C1 (falsified by the code): syncing the same entry twice is not
idempotent.  The first run creates the page; the second run, with the
source data unchanged, issues another write (`updated`), because
`steps_need_update` never returns `false`. -/
theorem c1_second_sync_writes_again :
    processSteps okEnv recA 0 [] = .ok (dbA, SyncAction.created)
    ∧ processSteps okEnv recA 1 dbA = .ok (update_daily_steps dbA 0 recA, SyncAction.updated) :=
  ⟨rfl, by rfl⟩

/-- C7 counterexample: with a create failure injected for 2024-03-01,
the whole run stops — the final state is unchanged and the page for
2024-03-02 is never created — even though processing 2024-03-02 alone
would succeed.  This falsifies "a failure on one date never aborts
processing of the others". -/
theorem c7_counterexample :
    runSteps envFail [(recB1, 0), (recB2, 1)] [] = ([], some "APIResponseError")
    ∧ processSteps envFail recB2 1 [] = .ok (create_daily_steps [] 1 recB2, SyncAction.created)
    ∧ daily_steps_exist (runSteps envFail [(recB1, 0), (recB2, 1)] []).1 (some "2024-03-02")
        = Option.none :=
  ⟨rfl, rfl, rfl⟩

/-- C7 amended: the per-date loop has no exception handling, so a
source- or destination-call failure for one date aborts the run — the
state reached so far is kept and the remaining dates are not
processed. -/
theorem c7_amended_failure_aborts_run (env : NotionEnv) (rec : StepsRec) (nid : ℕ)
    (rest : List (StepsRec × ℕ)) (db : List StepsPage) (e : String)
    (h : processSteps env rec nid db = .error e) :
    runSteps env ((rec, nid) :: rest) db = (db, some e) := by
  unfold runSteps
  rw [h]

/-- Witness for `c7_amended_failure_aborts_run` at a concrete failing
input. -/
theorem c7_amended_failure_aborts_run_witness :
    runSteps envFail [(recB1, 0), (recB2, 1)] [] = ([], some "APIResponseError") :=
  c7_amended_failure_aborts_run envFail recB1 0 [(recB2, 1)] [] "APIResponseError" (by rfl)

/-- C4 counterexample: `dailyC4` contains both the primary field
`sleepTimeSeconds` (with value `0`) and the fallback
`durationInSeconds` (`3600`), yet the alias selection takes the
fallback's value, because Python `or` falls through on the falsy primary
value `0`.  This falsifies "the value taken is always the primary
field's value". -/
theorem c4_counterexample :
    pyGetD dailyC4 "sleepTimeSeconds" = .num 0
    ∧ pyGetD dailyC4 "durationInSeconds" = .num 3600
    ∧ selAlias dailyC4 "sleepTimeSeconds" "durationInSeconds" = .ok (.num 3600)
    ∧ to_minutes (.num 3600) = .ok 60 :=
  ⟨rfl, rfl, rfl, rfl⟩

/-- C4 amended: the primary field's value is taken whenever it is truthy
(non-`None`, non-zero, non-empty); and the HRV probe takes the first
candidate key `lastNightAvg` whenever its value is numeric. -/
theorem c4_amended_alias_priority :
    (∀ (d : PyVal) (p f : String), isDict d = true → pyTruthy (pyGetD d p) = true →
      selAlias d p f = .ok (pyGetD d p))
    ∧ (∀ (kvs hs : List (String × PyVal)),
      pyGetD (.dict kvs) "hrvSummary" = .dict hs →
      isNum (pyGetD (.dict hs) "lastNightAvg") = true →
      hrvNightly (.dict kvs) = .ok (some (pyRound2 (toNum (pyGetD (.dict hs) "lastNightAvg"))))) := by
  constructor
  · intro d p f hd ht
    cases d with
    | dict kvs =>
        simp only [pyGetD] at ht ⊢
        simp only [selAlias, pyGetE]
        rw [if_pos ht]
    | none => simp [isDict] at hd
    | num q => simp [isDict] at hd
    | str s => simp [isDict] at hd
    | list xs => simp [isDict] at hd
  · intro kvs hs hsum hnum
    have hsub := pySubscr_of_pyGetD_dict kvs hs "hrvSummary" hsum
    simp only [hrvNightly]
    rw [hsum, hsub]
    show Except.ok (firstNumeric (PyVal.dict hs) ["lastNightAvg", "avg", "average"]) =
      Except.ok (some (pyRound2 (toNum (pyGetD (PyVal.dict hs) "lastNightAvg"))))
    simp only [firstNumeric]
    rw [if_pos hnum]

/-- Witness for `c4_amended_alias_priority`: a truthy primary value is
selected, and a numeric `lastNightAvg` inside `hrvSummary` is taken. -/
theorem c4_amended_alias_priority_witness :
    selAlias dailyC4 "durationInSeconds" "sleepTimeSeconds" = .ok (.num 3600)
    ∧ hrvNightly (.dict [("hrvSummary", .dict [("lastNightAvg", .num 55)])]) = .ok (some 55) :=
  ⟨c4_amended_alias_priority.1 dailyC4 "durationInSeconds" "sleepTimeSeconds" rfl rfl,
   c4_amended_alias_priority.2 [("hrvSummary", .dict [("lastNightAvg", .num 55)])]
     [("lastNightAvg", .num 55)] rfl rfl⟩

/-- C8: the HRV extraction is total — for every payload value of any
structure it terminates without raising and yields either a numeric
value or the absent outcome. -/
theorem c8_hrv_extraction_total (hrv : PyVal) : ∃ o : Option ℚ, hrvNightly hrv = .ok o := by
  cases hrv with
  | dict kvs =>
      cases hsum : pyGetD (.dict kvs) "hrvSummary" with
      | dict hs =>
          have hsub := pySubscr_of_pyGetD_dict kvs hs "hrvSummary" hsum
          refine ⟨firstNumeric (.dict hs) ["lastNightAvg", "avg", "average"], ?_⟩
          simp only [hrvNightly]
          rw [hsum, hsub]
          rfl
      | none =>
          refine ⟨firstNumeric (.dict kvs) ["lastNightAvg", "avg", "hrvValue", "average"], ?_⟩
          simp only [hrvNightly]
          rw [hsum]
          rfl
      | num q =>
          refine ⟨firstNumeric (.dict kvs) ["lastNightAvg", "avg", "hrvValue", "average"], ?_⟩
          simp only [hrvNightly]
          rw [hsum]
          rfl
      | str s =>
          refine ⟨firstNumeric (.dict kvs) ["lastNightAvg", "avg", "hrvValue", "average"], ?_⟩
          simp only [hrvNightly]
          rw [hsum]
          rfl
      | list xs =>
          refine ⟨firstNumeric (.dict kvs) ["lastNightAvg", "avg", "hrvValue", "average"], ?_⟩
          simp only [hrvNightly]
          rw [hsum]
          rfl
  | none => exact ⟨Option.none, rfl⟩
  | num q => exact ⟨Option.none, rfl⟩
  | str s => exact ⟨Option.none, rfl⟩
  | list xs => exact ⟨Option.none, rfl⟩

/-- C3 counterexample: against the standard sleep schema, an empty
sleep payload — every duration field absent — still yields a property
set writing `Total (min)` (and the other stage columns) as `0`,
because `to_minutes(daily.get(...) or 0)` turns an absent value into a
`0`-minute write.  This falsifies "a metric whose source value is
absent is omitted rather than written". -/
theorem c3_counterexample :
    hasProp stdSchema "Total (min)" = true
    ∧ pyGetD (dailyOf (.dict [])) "sleepTimeSeconds" = PyVal.none
    ∧ mapSleep stdSchema "2024-03-01" (.dict []) (.dict [])
        = .ok [("Date", .date "2024-03-01"), ("Total (min)", .num 0), ("Deep (min)", .num 0),
               ("REM (min)", .num 0), ("Light (min)", .num 0), ("Awake (min)", .num 0)] :=
  ⟨rfl, rfl, by rfl⟩

/-- Helper: the first-date-column loop of `find_date_prop` is `find?`
over the date-typed entries. -/
theorem findFirstDate_eq_find? (props : Schema) :
    findFirstDate props = (props.find? fun kv => decide (kv.2 = PType.date)).map Prod.fst := by
  induction props with
  | nil => rfl
  | cons kv rest ih =>
      rcases kv with ⟨k, t⟩
      cases t <;> simp [findFirstDate, List.find?, ih]

/-- Helper: the title-column loop of `find_title_prop` is `find?` over
the title-typed entries, with the `"Name"` fallback. -/
theorem find_title_prop_eq_find? (props : Schema) :
    find_title_prop props
      = (((props.find? fun kv => decide (kv.2 = PType.title)).map Prod.fst).getD "Name") := by
  induction props with
  | nil => rfl
  | cons kv rest ih =>
      rcases kv with ⟨k, t⟩
      cases t <;> simp [find_title_prop, List.find?, ih]

/-- C5: schema resolution.  The title column is the first column whose
declared type is title, with fixed fallback `"Name"`; the date column is
the column literally named `"Date"` when date-typed, else the first
date-typed column; no date column exists exactly when no column is
date-typed, and in that case the sleep pipeline fails fatally. -/
theorem c5_schema_resolution (props : Schema) :
    find_title_prop props
      = (((props.find? fun kv => decide (kv.2 = PType.title)).map Prod.fst).getD "Name")
    ∧ find_date_prop props
      = (match props.find? fun kv => kv.1 == "Date" with
         | some kv =>
             if kv.2 = PType.date then some "Date"
             else (props.find? fun kv2 => decide (kv2.2 = PType.date)).map Prod.fst
         | Option.none => (props.find? fun kv2 => decide (kv2.2 = PType.date)).map Prod.fst)
    ∧ (find_date_prop props = Option.none ↔ ∀ kv ∈ props, kv.2 ≠ PType.date)
    ∧ (∀ (t : String) (s h : PyVal), find_date_prop props = Option.none →
        mapSleep props t s h = .error "ERROR: No Date property found in your Sleep database.") := by
  have hffd := findFirstDate_eq_find? props
  have h2 : find_date_prop props
      = (match props.find? fun kv => kv.1 == "Date" with
         | some kv =>
             if kv.2 = PType.date then some "Date"
             else (props.find? fun kv2 => decide (kv2.2 = PType.date)).map Prod.fst
         | Option.none => (props.find? fun kv2 => decide (kv2.2 = PType.date)).map Prod.fst) := by
    simp only [find_date_prop]
    cases hf : props.find? fun kv => kv.1 == "Date" with
    | none => exact hffd
    | some kv =>
        rcases kv with ⟨k, t⟩
        cases t <;> simp [hffd]
  refine ⟨find_title_prop_eq_find? props, h2, ?_, ?_⟩
  · rw [h2]
    cases hf : props.find? fun kv => kv.1 == "Date" with
    | none =>
        simp only [Option.map_eq_none', List.find?_eq_none, decide_eq_true_eq]
    | some kv =>
        rcases kv with ⟨k, t⟩
        cases t with
        | date =>
            simp only [if_pos rfl]
            constructor
            · intro h; exact absurd h (by simp)
            · intro hall
              exact absurd rfl (hall (k, PType.date) (List.mem_of_find?_eq_some hf))
        | title => simp [List.find?_eq_none]
        | number => simp [List.find?_eq_none]
        | other => simp [List.find?_eq_none]
  · intro t s h hnone
    simp only [mapSleep]
    rw [hnone]

/-- Witness for `c5_schema_resolution`: a schema with no date-typed
column makes the sleep pipeline exit fatally. -/
theorem c5_schema_resolution_witness :
    mapSleep [("Foo", PType.number)] "2024-03-01" (.dict []) (.dict [])
      = .error "ERROR: No Date property found in your Sleep database." :=
  (c5_schema_resolution [("Foo", PType.number)]).2.2.2 "2024-03-01" (.dict []) (.dict []) (by rfl)

/-! ### Structural lemmas for the payload assembly -/

/-- A dict assignment makes a key present exactly when it was present
or is the assigned key. -/
theorem hasKey_setProp (ps : Props) (k : String) (v : NVal) (k' : String) :
    hasKey (setProp ps k v) k' = true ↔ (hasKey ps k' = true ∨ k' = k) := by
  unfold setProp hasKey
  by_cases h : ps.any fun kv => kv.1 == k
  · rw [if_pos h, List.any_map]
    have hfun : ((fun kv : String × NVal => kv.1 == k') ∘
        fun kv => if kv.1 == k then (kv.1, v) else kv) = fun kv : String × NVal => kv.1 == k' := by
      funext kv
      have hfst : ((if kv.1 == k then (kv.1, v) else kv).1) = kv.1 := by
        by_cases hk : kv.1 == k
        · rw [if_pos hk]
        · rw [if_neg hk]
      show ((if kv.1 == k then (kv.1, v) else kv).1 == k') = (kv.1 == k')
      rw [hfst]
    rw [hfun]
    constructor
    · exact Or.inl
    · rintro (h' | rfl)
      · exact h'
      · exact h
  · rw [if_neg h, List.any_append]
    simp only [List.any_cons, List.any_nil, Bool.or_false, Bool.or_eq_true, beq_iff_eq]
    exact or_congr Iff.rfl ⟨fun he => he.symm, fun he => he.symm⟩

/-- `applySteps` on an empty step list returns the input. -/
theorem applySteps_nil (ps : Props) : applySteps ps [] = .ok ps := rfl

/-- Keys absent from the input and from every enabled step stay
absent. -/
theorem applySteps_hasKey_false {steps : List WriteStep} {ps ps' : Props} {k' : String}
    (h : applySteps ps steps = .ok ps')
    (hst : ∀ st ∈ steps, st.guard = true → st.key ≠ k')
    (hk : hasKey ps k' = false) : hasKey ps' k' = false := by
  induction steps generalizing ps with
  | nil =>
      simp only [applySteps] at h
      cases h
      exact hk
  | cons st rest ih =>
      simp only [applySteps] at h
      cases hap : applyStep ps st with
      | error e => rw [hap] at h; cases h
      | ok ps2 =>
          rw [hap] at h
          refine ih h (fun st2 hm hg => hst st2 (List.mem_cons_of_mem _ hm) hg) ?_
          unfold applyStep at hap
          by_cases hg : st.guard = true
          · rw [if_pos hg] at hap
            cases hv : st.val with
            | error e => rw [hv] at hap; cases hap
            | ok v =>
                rw [hv] at hap
                cases hap
                have hne := hst st (List.mem_cons_self st rest) hg
                cases hres : hasKey (setProp ps st.key v) k' with
                | false => rfl
                | true =>
                    rcases (hasKey_setProp ps st.key v k').mp hres with h' | h'
                    · rw [h'] at hk; cases hk
                    · exact absurd h'.symm hne
          · rw [if_neg hg] at hap
            cases hap
            exact hk

/-- Keys present in the input stay present through the steps. -/
theorem applySteps_hasKey_true {steps : List WriteStep} {ps ps' : Props} {k' : String}
    (h : applySteps ps steps = .ok ps')
    (hk : hasKey ps k' = true) : hasKey ps' k' = true := by
  induction steps generalizing ps with
  | nil =>
      simp only [applySteps] at h
      cases h
      exact hk
  | cons st rest ih =>
      simp only [applySteps] at h
      cases hap : applyStep ps st with
      | error e => rw [hap] at h; cases h
      | ok ps2 =>
          rw [hap] at h
          refine ih h ?_
          unfold applyStep at hap
          by_cases hg : st.guard = true
          · rw [if_pos hg] at hap
            cases hv : st.val with
            | error e => rw [hv] at hap; cases hap
            | ok v =>
                rw [hv] at hap
                cases hap
                exact (hasKey_setProp ps st.key v k').mpr (Or.inl hk)
          · rw [if_neg hg] at hap
            cases hap
            exact hk

/-- A step whose guard is enabled leaves its key present in the
result. -/
theorem applySteps_hasKey_of_mem {steps : List WriteStep} {ps ps' : Props} {st : WriteStep}
    (h : applySteps ps steps = .ok ps')
    (hm : st ∈ steps) (hg : st.guard = true) : hasKey ps' st.key = true := by
  induction steps generalizing ps with
  | nil => cases hm
  | cons st0 rest ih =>
      simp only [applySteps] at h
      cases hap : applyStep ps st0 with
      | error e => rw [hap] at h; cases h
      | ok ps2 =>
          rw [hap] at h
          rcases List.mem_cons.mp hm with rfl | hm'
          · unfold applyStep at hap
            rw [if_pos hg] at hap
            cases hv : st.val with
            | error e => rw [hv] at hap; cases hap
            | ok v =>
                rw [hv] at hap
                cases hap
                exact applySteps_hasKey_true h
                  ((hasKey_setProp ps st.key v st.key).mpr (Or.inr rfl))
          · exact ih h hm'

/-- Any key present in the result was present in the input or written
by an enabled step. -/
theorem applySteps_hasKey_sub {steps : List WriteStep} {ps ps' : Props} {k' : String}
    (h : applySteps ps steps = .ok ps')
    (hk : hasKey ps' k' = true) :
    hasKey ps k' = true ∨ ∃ st ∈ steps, st.guard = true ∧ st.key = k' := by
  induction steps generalizing ps with
  | nil =>
      simp only [applySteps] at h
      cases h
      exact Or.inl hk
  | cons st rest ih =>
      simp only [applySteps] at h
      cases hap : applyStep ps st with
      | error e => rw [hap] at h; cases h
      | ok ps2 =>
          rw [hap] at h
          rcases ih h with h2 | ⟨st2, hm2, hg2, hk2⟩
          · unfold applyStep at hap
            by_cases hg : st.guard = true
            · rw [if_pos hg] at hap
              cases hv : st.val with
              | error e => rw [hv] at hap; cases hap
              | ok v =>
                  rw [hv] at hap
                  cases hap
                  rcases (hasKey_setProp ps st.key v k').mp h2 with h3 | h3
                  · exact Or.inl h3
                  · exact Or.inr ⟨st, List.mem_cons_self st rest, hg, h3.symm⟩
            · rw [if_neg hg] at hap
              cases hap
              exact Or.inl h2
          · exact Or.inr ⟨st2, List.mem_cons_of_mem _ hm2, hg2, hk2⟩

/-- Every enabled step of the sleep write catalog has `has_prop` true
for its column. -/
theorem sleepWriteSteps_guard_hasProp (db : Schema) (v : SleepVals) :
    ∀ st ∈ sleepWriteSteps db v, st.guard = true → hasProp db st.key = true := by
  intro st hm hg
  simp only [sleepWriteSteps, List.mem_cons, List.not_mem_nil, or_false] at hm
  rcases hm with rfl | rfl | rfl | rfl | rfl | rfl | rfl | rfl | rfl | rfl <;>
    first
      | exact hg
      | (simp only [Bool.and_eq_true] at hg; exact hg.1)

/-- Every step of the sleep write catalog writes a column of the fixed
metric catalog. -/
theorem sleepWriteSteps_key_mem (db : Schema) (v : SleepVals) :
    ∀ st ∈ sleepWriteSteps db v, st.key ∈ sleepMetricKeys := by
  intro st hm
  simp only [sleepWriteSteps, List.mem_cons, List.not_mem_nil, or_false] at hm
  rcases hm with rfl | rfl | rfl | rfl | rfl | rfl | rfl | rfl | rfl | rfl <;>
    simp [sleepMetricKeys]

/-- The date column resolved by `find_date_prop` is a column of the
schema. -/
theorem find_date_prop_mem (db : Schema) (dp : String)
    (h : find_date_prop db = some dp) : (dp, PType.date) ∈ db := by
  unfold find_date_prop at h
  cases hf : db.find? fun kv => kv.1 == "Date" with
  | none =>
      rw [hf] at h
      clear hf
      induction db with
      | nil => cases h
      | cons kv rest ih =>
          rcases kv with ⟨k, t⟩
          cases t with
          | date =>
              simp only [findFirstDate] at h
              cases h
              exact List.mem_cons_self _ _
          | title => exact List.mem_cons_of_mem _ (ih h)
          | number => exact List.mem_cons_of_mem _ (ih h)
          | other => exact List.mem_cons_of_mem _ (ih h)
  | some kv =>
      rcases kv with ⟨k, t⟩
      have hk : k = "Date" := by
        have := List.find?_some hf
        exact eq_of_beq this
      cases t with
      | date =>
          rw [hf] at h
          cases h
          rw [← hk]
          exact List.mem_of_find?_eq_some hf
      | title =>
          rw [hf] at h
          clear hf
          induction db with
          | nil => cases h
          | cons kv rest ih =>
              rcases kv with ⟨k2, t2⟩
              cases t2 with
              | date =>
                  simp only [findFirstDate] at h
                  cases h
                  exact List.mem_cons_self _ _
              | title => exact List.mem_cons_of_mem _ (ih h)
              | number => exact List.mem_cons_of_mem _ (ih h)
              | other => exact List.mem_cons_of_mem _ (ih h)
      | number =>
          rw [hf] at h
          clear hf
          induction db with
          | nil => cases h
          | cons kv rest ih =>
              rcases kv with ⟨k2, t2⟩
              cases t2 with
              | date =>
                  simp only [findFirstDate] at h
                  cases h
                  exact List.mem_cons_self _ _
              | title => exact List.mem_cons_of_mem _ (ih h)
              | number => exact List.mem_cons_of_mem _ (ih h)
              | other => exact List.mem_cons_of_mem _ (ih h)
      | other =>
          rw [hf] at h
          clear hf
          induction db with
          | nil => cases h
          | cons kv rest ih =>
              rcases kv with ⟨k2, t2⟩
              cases t2 with
              | date =>
                  simp only [findFirstDate] at h
                  cases h
                  exact List.mem_cons_self _ _
              | title => exact List.mem_cons_of_mem _ (ih h)
              | number => exact List.mem_cons_of_mem _ (ih h)
              | other => exact List.mem_cons_of_mem _ (ih h)

/-- The resolved date column satisfies `has_prop`. -/
theorem find_date_prop_hasProp (db : Schema) (dp : String)
    (h : find_date_prop db = some dp) : hasProp db dp = true :=
  List.any_eq_true.mpr ⟨(dp, PType.date), find_date_prop_mem db dp h, by simp⟩

/-- Inversion of a successful `mapSleep`: the date column resolved, the
extraction succeeded, and the payload is the assembled property set. -/
theorem mapSleep_ok_inv (db : Schema) (target : String) (sleep hrv : PyVal) (props : Props)
    (h : mapSleep db target sleep hrv = .ok props) :
    ∃ dp v, find_date_prop db = some dp
      ∧ extractSleep sleep hrv = .ok v
      ∧ applySteps [(dp, NVal.date target)] (sleepWriteSteps db v) = .ok props := by
  unfold mapSleep at h
  cases hdp : find_date_prop db with
  | none => rw [hdp] at h; cases h
  | some dp =>
      rw [hdp] at h
      cases hex : extractSleep sleep hrv with
      | error e => rw [hex] at h; cases h
      | ok v =>
          rw [hex] at h
          exact ⟨dp, v, rfl, rfl, h⟩

/-- A one-entry property dict has exactly its one key. -/
theorem hasKey_singleton (k : String) (v : NVal) (k' : String) :
    hasKey [(k, v)] k' = (k == k') := by
  simp [hasKey]

/-- C3 amended: the Field Mapper writes a metric column only if the
schema contains it — a column absent from the schema never appears in
the payload, for any input payload shape.  An absent source value is
omitted for the guarded columns (`Score`, `Efficiency (%)`, `Bedtime`,
`Wake time`, `HRV (ms)`, when each is not the resolved date column),
but the stage/total minute columns are written (as `0` minutes) whenever
the schema has them, even when the source value is absent. -/
theorem c3_amended_column_suppression
    (db : Schema) (dp target : String) (sleep hrv : PyVal) (v : SleepVals) (props : Props)
    (hdp : find_date_prop db = some dp)
    (hex : extractSleep sleep hrv = .ok v)
    (hmap : mapSleep db target sleep hrv = .ok props) :
    (∀ k, hasProp db k = false → hasKey props k = false)
    ∧ (isNone v.score = true → "Score" ≠ dp → hasKey props "Score" = false)
    ∧ (isNone v.efficiency = true → "Efficiency (%)" ≠ dp →
        hasKey props "Efficiency (%)" = false)
    ∧ (v.bedtime_iso = Option.none → "Bedtime" ≠ dp → hasKey props "Bedtime" = false)
    ∧ (v.waketime_iso = Option.none → "Wake time" ≠ dp → hasKey props "Wake time" = false)
    ∧ (v.hrv_nightly = Option.none → "HRV (ms)" ≠ dp → hasKey props "HRV (ms)" = false)
    ∧ (hasProp db "Total (min)" = true → hasKey props "Total (min)" = true) := by
  obtain ⟨dp', v', hdp', hex', happ⟩ := mapSleep_ok_inv db target sleep hrv props hmap
  rw [hdp] at hdp'
  injection hdp' with hdpe
  subst hdpe
  rw [hex] at hex'
  injection hex' with hexe
  subst hexe
  refine ⟨?_, ?_, ?_, ?_, ?_, ?_, ?_⟩
  · intro k hk
    have hkd : dp ≠ k := by
      intro he
      rw [← he, find_date_prop_hasProp db dp hdp] at hk
      cases hk
    refine applySteps_hasKey_false happ ?_ ?_
    · intro st hm hg he
      have hpr := sleepWriteSteps_guard_hasProp db v st hm hg
      rw [he, hk] at hpr
      cases hpr
    · rw [hasKey_singleton]
      exact beq_eq_false_iff_ne.mpr hkd
  · intro hno hne
    refine applySteps_hasKey_false happ ?_ ?_
    · intro st hm hg
      simp only [sleepWriteSteps, List.mem_cons, List.not_mem_nil, or_false] at hm
      rcases hm with rfl | rfl | rfl | rfl | rfl | rfl | rfl | rfl | rfl | rfl <;>
        first
          | exact beq_eq_false_iff_ne.mp (by rfl)
          | (simp [hno] at hg)
    · rw [hasKey_singleton]
      exact beq_eq_false_iff_ne.mpr (fun he => hne he.symm)
  · intro hno hne
    refine applySteps_hasKey_false happ ?_ ?_
    · intro st hm hg
      simp only [sleepWriteSteps, List.mem_cons, List.not_mem_nil, or_false] at hm
      rcases hm with rfl | rfl | rfl | rfl | rfl | rfl | rfl | rfl | rfl | rfl <;>
        first
          | exact beq_eq_false_iff_ne.mp (by rfl)
          | (simp [hno] at hg)
    · rw [hasKey_singleton]
      exact beq_eq_false_iff_ne.mpr (fun he => hne he.symm)
  · intro hno hne
    refine applySteps_hasKey_false happ ?_ ?_
    · intro st hm hg
      simp only [sleepWriteSteps, List.mem_cons, List.not_mem_nil, or_false] at hm
      rcases hm with rfl | rfl | rfl | rfl | rfl | rfl | rfl | rfl | rfl | rfl <;>
        first
          | exact beq_eq_false_iff_ne.mp (by rfl)
          | (simp [hno, optStrTruthy] at hg)
    · rw [hasKey_singleton]
      exact beq_eq_false_iff_ne.mpr (fun he => hne he.symm)
  · intro hno hne
    refine applySteps_hasKey_false happ ?_ ?_
    · intro st hm hg
      simp only [sleepWriteSteps, List.mem_cons, List.not_mem_nil, or_false] at hm
      rcases hm with rfl | rfl | rfl | rfl | rfl | rfl | rfl | rfl | rfl | rfl <;>
        first
          | exact beq_eq_false_iff_ne.mp (by rfl)
          | (simp [hno, optStrTruthy] at hg)
    · rw [hasKey_singleton]
      exact beq_eq_false_iff_ne.mpr (fun he => hne he.symm)
  · intro hno hne
    refine applySteps_hasKey_false happ ?_ ?_
    · intro st hm hg
      simp only [sleepWriteSteps, List.mem_cons, List.not_mem_nil, or_false] at hm
      rcases hm with rfl | rfl | rfl | rfl | rfl | rfl | rfl | rfl | rfl | rfl <;>
        first
          | exact beq_eq_false_iff_ne.mp (by rfl)
          | (simp [hno] at hg)
    · rw [hasKey_singleton]
      exact beq_eq_false_iff_ne.mpr (fun he => hne he.symm)
  · intro ht
    have hm : (⟨hasProp db "Total (min)", "Total (min)",
        .ok (.num (v.total_min : ℚ))⟩ : WriteStep) ∈ sleepWriteSteps db v :=
      List.mem_cons_self _ _
    exact applySteps_hasKey_of_mem happ hm ht

/-- Witness for `c3_amended_column_suppression` at the standard schema
with empty payloads: a column not in the schema is absent, `Score` is
omitted (its source value is absent), and `Total (min)` is written. -/
theorem c3_amended_column_suppression_witness :
    hasKey [("Date", NVal.date "2024-03-01"), ("Total (min)", NVal.num 0),
            ("Deep (min)", NVal.num 0), ("REM (min)", NVal.num 0),
            ("Light (min)", NVal.num 0), ("Awake (min)", NVal.num 0)] "Nonexistent" = false
    ∧ hasKey [("Date", NVal.date "2024-03-01"), ("Total (min)", NVal.num 0),
            ("Deep (min)", NVal.num 0), ("REM (min)", NVal.num 0),
            ("Light (min)", NVal.num 0), ("Awake (min)", NVal.num 0)] "Score" = false
    ∧ hasKey [("Date", NVal.date "2024-03-01"), ("Total (min)", NVal.num 0),
            ("Deep (min)", NVal.num 0), ("REM (min)", NVal.num 0),
            ("Light (min)", NVal.num 0), ("Awake (min)", NVal.num 0)] "Total (min)" = true := by
  have h := c3_amended_column_suppression stdSchema "Date" "2024-03-01" (.dict []) (.dict [])
    ⟨0, 0, 0, 0, 0, PyVal.none, PyVal.none, Option.none, Option.none, Option.none⟩
    [("Date", NVal.date "2024-03-01"), ("Total (min)", NVal.num 0),
     ("Deep (min)", NVal.num 0), ("REM (min)", NVal.num 0),
     ("Light (min)", NVal.num 0), ("Awake (min)", NVal.num 0)]
    (by rfl) (by rfl) (by rfl)
  exact ⟨h.1 "Nonexistent" (by rfl), h.2.1 rfl (by decide), h.2.2.2.2.2.2 (by rfl)⟩

/-! ### Lookup through a dict union / page update -/

/-- Filtering by a predicate implied by the search predicate does not
change `find?`. -/
theorem find?_filter_of_imp {α : Type} (p q : α → Bool) (l : List α)
    (h : ∀ x, p x = true → q x = true) : (l.filter q).find? p = l.find? p := by
  induction l with
  | nil => rfl
  | cons a l ih =>
      by_cases hq : q a = true
      · rw [List.filter_cons_of_pos hq]
        by_cases hp : p a = true
        · rw [List.find?_cons_of_pos _ hp, List.find?_cons_of_pos _ hp]
        · rw [List.find?_cons_of_neg _ hp, List.find?_cons_of_neg _ hp, ih]
      · rw [List.filter_cons_of_neg hq]
        have hp : ¬p a = true := fun hp => hq (h a hp)
        rw [ih, List.find?_cons_of_neg _ hp]

/-- Looking a key up in `\x7b**stored, **payload\x7d` reads the payload's
value when the payload has the key, the stored value otherwise. -/
theorem lookupProp_updProps (stored payload : Props) (k : String) :
    lookupProp (updProps stored payload) k =
      match lookupProp payload k with
      | some v => some v
      | Option.none => lookupProp stored k := by
  unfold updProps lookupProp
  rw [List.find?_append, List.find?_map]
  have hcomp : ((fun kv : String × NVal => kv.1 == k) ∘ fun kv =>
      match payload.find? fun kv2 => kv2.1 == kv.1 with
      | some kv2 => (kv.1, kv2.2)
      | Option.none => kv) = fun kv : String × NVal => kv.1 == k := by
    funext kv
    show ((match (payload.find? fun kv2 => kv2.1 == kv.1 : Option (String × NVal)) with
      | some kv2 => (kv.1, kv2.2) | Option.none => kv).1 == k) = (kv.1 == k)
    cases payload.find? fun kv2 => kv2.1 == kv.1 with
    | some kv2 => rfl
    | none => rfl
  rw [hcomp]
  cases hs : stored.find? fun kv => kv.1 == k with
  | some kv0 =>
      have hb := @List.find?_some _ (fun kv : String × NVal => kv.1 == k) kv0 stored hs
      have hk0 : kv0.1 = k := eq_of_beq hb
      simp only [Option.map_some', Option.or_some]
      show some ((match (payload.find? fun kv2 => kv2.1 == kv0.1 : Option (String × NVal)) with
        | some kv2 => (kv0.1, kv2.2) | Option.none => kv0).2) = _
      rw [hk0]
      cases hp : payload.find? fun kv2 => kv2.1 == k with
      | some kv2 => rfl
      | none => rfl
  | none =>
      simp only [Option.map_none', Option.none_or]
      have hflt : ((payload.filter fun kv2 => !(stored.any fun kv => kv.1 == kv2.1)).find?
          fun kv => kv.1 == k) = payload.find? fun kv => kv.1 == k := by
        refine find?_filter_of_imp _ _ _ ?_
        intro kv2 hk2
        have hk2' : kv2.1 = k := eq_of_beq hk2
        have hall := List.find?_eq_none.mp hs
        rw [hk2']
        have hany : (stored.any fun kv => kv.1 == k) = false := List.any_eq_false.mpr hall
        rw [hany]
        rfl
      rw [hflt]
      cases hp : payload.find? fun kv => kv.1 == k with
      | some kv2 => rfl
      | none => rfl

/-- A key absent from a property dict looks up to nothing. -/
theorem lookupProp_eq_none_of_hasKey_false (ps : Props) (k : String)
    (h : hasKey ps k = false) : lookupProp ps k = Option.none := by
  unfold hasKey at h
  unfold lookupProp
  rw [Option.map_eq_none', List.find?_eq_none]
  exact List.any_eq_false.mp h

/-- Updating with a payload that lacks a key leaves that key's stored
value unchanged. -/
theorem lookupProp_updProps_not_payload (stored payload : Props) (k : String)
    (h : hasKey payload k = false) :
    lookupProp (updProps stored payload) k = lookupProp stored k := by
  rw [lookupProp_updProps, lookupProp_eq_none_of_hasKey_false payload k h]

/-- Updating with a payload that has a key stores the payload's value. -/
theorem lookupProp_updProps_payload (stored payload : Props) (k : String) (v : NVal)
    (h : lookupProp payload k = some v) :
    lookupProp (updProps stored payload) k = some v := by
  rw [lookupProp_updProps, h]

/-- When a title-typed column exists, `find_title_prop` returns one. -/
theorem find_title_prop_mem (db : Schema) (h : ∃ kv ∈ db, kv.2 = PType.title) :
    (find_title_prop db, PType.title) ∈ db := by
  induction db with
  | nil =>
      rcases h with ⟨kv, hm, _⟩
      cases hm
  | cons kv rest ih =>
      rcases kv with ⟨k, t⟩
      cases t with
      | title => exact List.mem_cons_self _ _
      | date =>
          rcases h with ⟨kv2, hm2, ht2⟩
          rcases List.mem_cons.mp hm2 with rfl | hm3
          · cases ht2
          · exact List.mem_cons_of_mem _ (ih ⟨kv2, hm3, ht2⟩)
      | number =>
          rcases h with ⟨kv2, hm2, ht2⟩
          rcases List.mem_cons.mp hm2 with rfl | hm3
          · cases ht2
          · exact List.mem_cons_of_mem _ (ih ⟨kv2, hm3, ht2⟩)
      | other =>
          rcases h with ⟨kv2, hm2, ht2⟩
          rcases List.mem_cons.mp hm2 with rfl | hm3
          · cases ht2
          · exact List.mem_cons_of_mem _ (ih ⟨kv2, hm3, ht2⟩)

/-- In a schema whose column names are unique (Python dict keys), a name
has one declared type. -/
theorem key_type_unique (db : Schema) (hnd : (db.map Prod.fst).Nodup) {k : String}
    {a b : PType} (ha : (k, a) ∈ db) (hb : (k, b) ∈ db) : a = b := by
  have := List.inj_on_of_nodup_map hnd ha hb rfl
  injection this with h1 h2

/-- A `pages.update` call carrying no icon and a payload without a given
key maps each stored page to one with the same id, the same icon, and
the same value at that key. -/
theorem pagesUpdate_preserves (sdb : List SleepPage) (pid : ℕ) (payload : Props) (k : String)
    (hk : hasKey payload k = false) (p : SleepPage) (hp : p ∈ sdb) :
    ∃ p' ∈ pagesUpdate sdb pid payload Option.none,
      p'.id = p.id ∧ p'.icon = p.icon ∧ lookupProp p'.props k = lookupProp p.props k := by
  unfold pagesUpdate
  refine ⟨_, List.mem_map_of_mem _ hp, ?_, ?_, ?_⟩
  · by_cases hid : p.id == pid
    · rw [if_pos hid]
    · rw [if_neg hid]
  · by_cases hid : p.id == pid
    · rw [if_pos hid]
      rfl
    · rw [if_neg hid]
  · by_cases hid : p.id == pid
    · rw [if_pos hid]
      exact lookupProp_updProps_not_payload p.props payload k hk
    · rw [if_neg hid]

/-- C10: the sleep upsert's update path never writes the title property
or an icon.  Under a well-formed schema — unique column names, an
existing title-typed column, and no metric-catalog column declared as a
title — the mapped payload has no entry for the resolved title column;
on the update path every stored page keeps its id, its icon, and its
stored title value; the synthesized title (`"Sleep <date>"`) and the
emoji icon are written only on the create path. -/
theorem c10_update_never_writes_title_or_icon
    (db : Schema) (target : String) (sleep hrv : PyVal) (props : Props)
    (hnodup : (db.map Prod.fst).Nodup)
    (htitle : ∃ kv ∈ db, kv.2 = PType.title)
    (hmetrics : ∀ kv ∈ db, kv.1 ∈ sleepMetricKeys → kv.2 ≠ PType.title)
    (hmap : mapSleep db target sleep hrv = .ok props)
    (sdb : List SleepPage) (nid : ℕ) (dp : String)
    (hdp : find_date_prop db = some dp) :
    hasKey props (find_title_prop db) = false
    ∧ (∀ pid, query_by_date sdb dp target = some pid →
        ∀ p ∈ sdb, ∃ p' ∈ (syncSleep sdb (find_title_prop db) dp target props nid).1,
          p'.id = p.id ∧ p'.icon = p.icon
          ∧ lookupProp p'.props (find_title_prop db) = lookupProp p.props (find_title_prop db))
    ∧ (query_by_date sdb dp target = Option.none →
        (syncSleep sdb (find_title_prop db) dp target props nid).1
            = sdb ++ [⟨nid, some "😴",
                updProps [(find_title_prop db, NVal.title ("Sleep " ++ target))] props⟩]
          ∧ lookupProp (updProps [(find_title_prop db, NVal.title ("Sleep " ++ target))] props)
              (find_title_prop db) = some (NVal.title ("Sleep " ++ target))) := by
  have htp_mem : (find_title_prop db, PType.title) ∈ db := find_title_prop_mem db htitle
  obtain ⟨dp', v, hdp', hex, happ⟩ := mapSleep_ok_inv db target sleep hrv props hmap
  rw [hdp] at hdp'
  injection hdp' with hdpe
  subst hdpe
  have h1 : hasKey props (find_title_prop db) = false := by
    cases hres : hasKey props (find_title_prop db) with
    | false => rfl
    | true =>
        rcases applySteps_hasKey_sub happ hres with hbase | ⟨st, hm, hg, hkey⟩
        · rw [hasKey_singleton] at hbase
          have hde : dp = find_title_prop db := eq_of_beq hbase
          have hdmem : (dp, PType.date) ∈ db := find_date_prop_mem db dp hdp
          rw [hde] at hdmem
          cases key_type_unique db hnodup hdmem htp_mem
        · have hkmem : st.key ∈ sleepMetricKeys := sleepWriteSteps_key_mem db v st hm
          rw [hkey] at hkmem
          exact absurd rfl (hmetrics (find_title_prop db, PType.title) htp_mem hkmem)
  refine ⟨h1, ?_, ?_⟩
  · intro pid hq p hp
    have hsync : syncSleep sdb (find_title_prop db) dp target props nid
        = (pagesUpdate sdb pid props Option.none, .updated) := by
      unfold syncSleep
      rw [hq]
    rw [hsync]
    exact pagesUpdate_preserves sdb pid props (find_title_prop db) h1 p hp
  · intro hq
    have hsync : syncSleep sdb (find_title_prop db) dp target props nid
        = (pagesCreate sdb nid
            (updProps [(find_title_prop db, NVal.title ("Sleep " ++ target))] props)
            (some "😴"), .created) := by
      unfold syncSleep
      rw [hq]
    rw [hsync]
    refine ⟨rfl, ?_⟩
    rw [lookupProp_updProps_not_payload _ props _ h1]
    simp [lookupProp]

/-- Witness for `c10_update_never_writes_title_or_icon`: with a schema
holding a `"Name"` title column and the standard sleep columns, the
mapped payload for empty payloads contains no write for `"Name"`. -/
theorem c10_update_never_writes_title_or_icon_witness :
    hasKey [("Date", NVal.date "2024-03-01"), ("Total (min)", NVal.num 0),
            ("Deep (min)", NVal.num 0), ("REM (min)", NVal.num 0),
            ("Light (min)", NVal.num 0), ("Awake (min)", NVal.num 0)] "Name" = false :=
  (c10_update_never_writes_title_or_icon (("Name", PType.title) :: stdSchema) "2024-03-01"
    (.dict []) (.dict [])
    [("Date", NVal.date "2024-03-01"), ("Total (min)", NVal.num 0),
     ("Deep (min)", NVal.num 0), ("REM (min)", NVal.num 0),
     ("Light (min)", NVal.num 0), ("Awake (min)", NVal.num 0)]
    (by decide)
    ⟨("Name", PType.title), List.mem_cons_self _ _, rfl⟩
    (by decide)
    (by rfl)
    [] 0 "Date" (by rfl)).1

/-! ### C9: the lookup-before-write discipline preserves uniqueness -/

/-- The title value written by both steps write paths renders as
`"Walking"`. -/
theorem plainText_walking : plainText (PyVal.list [PyVal.str "Walking"]) = "Walking" := rfl

/-- Mapping by a function that preserves a projection preserves the
projected list. -/
theorem map_id_of_pointwise {A B : Type} (f : A → B) (g : A → A)
    (h : ∀ q, f (g q) = f q) (l : List A) : (l.map g).map f = l.map f := by
  induction l with
  | nil => rfl
  | cons a l ih => simp [h, ih]

/-- Mapping by a function that preserves a predicate on the list's
members preserves the count. -/
theorem countP_map_eq {A : Type} (pr : A → Bool) (g : A → A) (l : List A)
    (h : ∀ q ∈ l, pr (g q) = pr q) : (l.map g).countP pr = l.countP pr := by
  induction l with
  | nil => rfl
  | cons a l ih =>
      simp only [List.map_cons, List.countP_cons, h a (List.mem_cons_self a l),
        ih fun q hq => h q (List.mem_cons_of_mem _ hq)]

/-- Inversion of a successful per-date steps iteration: it either
updated a found page that needed an update, skipped a found page that
did not, or created a page when the lookup found none. -/
theorem processSteps_ok_inv (env : NotionEnv) (rec : StepsRec) (nid : ℕ)
    (db db' : List StepsPage) (a : SyncAction)
    (h : processSteps env rec nid db = .ok (db', a)) :
    (∃ p, daily_steps_exist db rec.calendarDate = some p ∧ steps_need_update p rec = true
       ∧ db' = update_daily_steps db p.id rec ∧ a = .updated)
    ∨ (∃ p, daily_steps_exist db rec.calendarDate = some p ∧ steps_need_update p rec = false
       ∧ db' = db ∧ a = .skipped)
    ∨ (daily_steps_exist db rec.calendarDate = Option.none
       ∧ db' = create_daily_steps db nid rec ∧ a = .created) := by
  unfold processSteps at h
  split at h
  · cases h
  · split at h
    · rename_i p heq
      split at h
      · rename_i hnu
        split at h
        · cases h
        · injection h with hpair
          injection hpair with hdb ha
          exact Or.inl ⟨p, heq, hnu, hdb.symm, ha.symm⟩
      · rename_i hnu
        injection h with hpair
        injection hpair with hdb ha
        exact Or.inr (Or.inl ⟨p, heq, Bool.not_eq_true _ ▸ hnu, hdb.symm, ha.symm⟩)
    · rename_i heq
      split at h
      · cases h
      · injection h with hpair
        injection hpair with hdb ha
        exact Or.inr (Or.inr ⟨heq, hdb.symm, ha.symm⟩)

/-- C9: for both syncs, a create is issued only when the lookup by date
(and kind discriminator) found no existing record, the update path never
adds a record, and the at-most-one-record-per-key invariant is
preserved.  For the sleep part, the payload is assumed to carry the
queried date value under the date column, as `main`'s payload does. -/
theorem c9_lookup_before_write_uniqueness :
    (∀ (env : NotionEnv) (rec : StepsRec) (nid : ℕ) (db db' : List StepsPage) (a : SyncAction),
       StepsInv db → nid ∉ db.map StepsPage.id →
       processSteps env rec nid db = .ok (db', a) →
       StepsInv db'
       ∧ (a = .created ↔ daily_steps_exist db rec.calendarDate = Option.none)
       ∧ (a ≠ .created → db'.length = db.length))
    ∧ (∀ (sdb : List SleepPage) (tp dp target : String) (props : Props) (nid : ℕ),
       SleepInv dp sdb → nid ∉ sdb.map SleepPage.id →
       lookupProp props dp = some (NVal.date target) →
       SleepInv dp (syncSleep sdb tp dp target props nid).1
       ∧ ((syncSleep sdb tp dp target props nid).2 = .created
            ↔ query_by_date sdb dp target = Option.none)
       ∧ ((syncSleep sdb tp dp target props nid).2 ≠ .created →
            (syncSleep sdb tp dp target props nid).1.length = sdb.length)) := by
  constructor
  · intro env rec nid db db' a hinv hfresh hproc
    rcases processSteps_ok_inv env rec nid db db' a hproc with
      ⟨p, hex, hnu, hdb, ha⟩ | ⟨p, hex, hnu, hdb, ha⟩ | ⟨hex, hdb, ha⟩
    · subst hdb
      subst ha
      have hmem_p : p ∈ db := List.mem_of_find?_eq_some hex
      have hkey_p := @List.find?_some _ (stepsKeyP rec.calendarDate "Walking") p db hex
      have hkey_p2 := hkey_p
      rw [stepsKeyP, Bool.and_eq_true] at hkey_p2
      have hplain : plainText p.activityTitle = "Walking" := eq_of_beq hkey_p2.2
      have hidf : ∀ q : StepsPage,
          ((fun q : StepsPage => if q.id == p.id then
              { q with activityTitle := .list [.str "Walking"],
                       totalSteps := rec.totalSteps,
                       stepGoal := rec.stepGoal,
                       distanceKm := some (mappedDistanceKm rec.totalDistance) }
            else q) q).id = q.id := by
        intro q
        simp only []
        by_cases hq : q.id == p.id
        · rw [if_pos hq]
        · rw [if_neg hq]
      refine ⟨⟨?_, ?_⟩, ?_, ?_⟩
      · unfold update_daily_steps
        rw [map_id_of_pointwise StepsPage.id _ hidf db]
        exact hinv.1
      · intro d t
        unfold update_daily_steps
        have hcongr : ∀ q ∈ db,
            stepsKeyP d t ((fun q : StepsPage => if q.id == p.id then
                { q with activityTitle := .list [.str "Walking"],
                         totalSteps := rec.totalSteps,
                         stepGoal := rec.stepGoal,
                         distanceKm := some (mappedDistanceKm rec.totalDistance) }
              else q) q) = stepsKeyP d t q := by
          intro q hq
          simp only []
          by_cases hqid : q.id == p.id
          · have hqp : q = p :=
              List.inj_on_of_nodup_map hinv.1 hq hmem_p (eq_of_beq hqid)
            subst hqp
            rw [if_pos hqid]
            unfold stepsKeyP
            show ((q.date == d) && (plainText (PyVal.list [PyVal.str "Walking"]) == t))
                = ((q.date == d) && (plainText q.activityTitle == t))
            rw [plainText_walking, hplain]
          · rw [if_neg hqid]
        rw [countP_map_eq _ _ db hcongr]
        exact hinv.2 d t
      · constructor
        · intro h
          cases h
        · intro h
          rw [hex] at h
          cases h
      · intro _
        unfold update_daily_steps
        exact List.length_map _ _
    · subst hdb
      subst ha
      refine ⟨hinv, ?_, fun _ => rfl⟩
      constructor
      · intro h
        cases h
      · intro h
        rw [hex] at h
        cases h
    · subst hdb
      subst ha
      refine ⟨⟨?_, ?_⟩, ?_, ?_⟩
      · unfold create_daily_steps
        rw [List.map_append]
        rw [List.nodup_append]
        refine ⟨hinv.1, List.nodup_singleton _, ?_⟩
        intro x hx hx2
        simp only [List.map_cons, List.map_nil, List.mem_singleton] at hx2
        subst hx2
        exact hfresh hx
      · intro d t
        unfold create_daily_steps
        rw [List.countP_append]
        by_cases hnp : stepsKeyP d t
            ⟨nid, rec.calendarDate, .list [.str "Walking"],
             rec.totalSteps, rec.stepGoal,
             some (mappedDistanceKm rec.totalDistance)⟩ = true
        · have hnp2 := hnp
          rw [stepsKeyP, Bool.and_eq_true] at hnp2
          obtain ⟨h1, h2⟩ := hnp2
          have hd : rec.calendarDate = d := eq_of_beq h1
          have ht : plainText (PyVal.list [PyVal.str "Walking"]) = t := eq_of_beq h2
          rw [plainText_walking] at ht
          subst hd
          subst ht
          have hzero : (db.countP fun p => stepsKeyP rec.calendarDate "Walking" p) = 0 := by
            rw [List.countP_eq_zero]
            exact List.find?_eq_none.mp hex
          have hone : (List.countP (fun p => stepsKeyP rec.calendarDate "Walking" p)
              [⟨nid, rec.calendarDate, .list [.str "Walking"], rec.totalSteps,
                rec.stepGoal, some (mappedDistanceKm rec.totalDistance)⟩]) ≤ 1 := by
            simp [List.countP_cons, hnp]
          omega
        · have hzero2 : (List.countP (fun p => stepsKeyP d t p)
              [⟨nid, rec.calendarDate, .list [.str "Walking"], rec.totalSteps,
                rec.stepGoal, some (mappedDistanceKm rec.totalDistance)⟩]) = 0 := by
            rw [List.countP_eq_zero]
            intro x hx
            simp only [List.mem_singleton] at hx
            subst hx
            exact fun h => hnp h
          rw [hzero2]
          have := hinv.2 d t
          omega
      · exact ⟨fun _ => hex, fun _ => rfl⟩
      · intro h
        exact absurd rfl h
  · intro sdb tp dp target props nid hinv hfresh hpay
    cases hq : query_by_date sdb dp target with
    | some pid =>
        have hsync : syncSleep sdb tp dp target props nid
            = (pagesUpdate sdb pid props Option.none, .updated) := by
          unfold syncSleep
          rw [hq]
        simp only [hsync]
        obtain ⟨p0, hf0, hpid⟩ : ∃ p0, (sdb.find? fun p =>
            decide (lookupProp p.props dp = some (NVal.date target))) = some p0
            ∧ p0.id = pid := by
          unfold query_by_date at hq
          cases hf : sdb.find? fun p =>
              decide (lookupProp p.props dp = some (NVal.date target)) with
          | none => rw [hf] at hq; cases hq
          | some p0 =>
              rw [hf] at hq
              injection hq with hq2
              exact ⟨p0, rfl, hq2⟩
        have hmem0 : p0 ∈ sdb := List.mem_of_find?_eq_some hf0
        have hlook0 : lookupProp p0.props dp = some (NVal.date target) := by
          have := @List.find?_some _
            (fun p => decide (lookupProp p.props dp = some (NVal.date target))) p0 sdb hf0
          exact of_decide_eq_true this
        have hidf : ∀ q : SleepPage,
            ((fun q : SleepPage => if q.id == pid then
                { q with props := updProps q.props props,
                         icon := Option.none.orElse fun _ => q.icon }
              else q) q).id = q.id := by
          intro q
          simp only []
          by_cases hqid : q.id == pid
          · rw [if_pos hqid]
          · rw [if_neg hqid]
        refine ⟨⟨?_, ?_⟩, ?_, ?_⟩
        · unfold pagesUpdate
          rw [map_id_of_pointwise SleepPage.id _ hidf sdb]
          exact hinv.1
        · intro t
          unfold pagesUpdate
          have hcongr : ∀ q ∈ sdb,
              decide (lookupProp ((fun q : SleepPage => if q.id == pid then
                  { q with props := updProps q.props props,
                           icon := Option.none.orElse fun _ => q.icon }
                else q) q).props dp = some (NVal.date t))
              = decide (lookupProp q.props dp = some (NVal.date t)) := by
            intro q hq
            simp only []
            refine decide_eq_decide.mpr ?_
            by_cases hqid : q.id == pid
            · have hqp : q = p0 := by
                refine List.inj_on_of_nodup_map hinv.1 hq hmem0 ?_
                rw [eq_of_beq hqid, hpid]
              subst hqp
              rw [if_pos hqid]
              show lookupProp (updProps q.props props) dp = some (NVal.date t)
                  ↔ lookupProp q.props dp = some (NVal.date t)
              rw [lookupProp_updProps_payload q.props props dp (NVal.date target) hpay, hlook0]
            · rw [if_neg hqid]
          rw [countP_map_eq _ _ sdb hcongr]
          exact hinv.2 t
        · constructor
          · intro h
            cases h
          · intro h
            cases h
        · intro _
          unfold pagesUpdate
          exact List.length_map _ _
    | none =>
        have hsync : syncSleep sdb tp dp target props nid
            = (pagesCreate sdb nid
                (updProps [(tp, NVal.title ("Sleep " ++ target))] props) (some "😴"),
               .created) := by
          unfold syncSleep
          rw [hq]
        simp only [hsync]
        have hlooknp : lookupProp (updProps [(tp, NVal.title ("Sleep " ++ target))] props) dp
            = some (NVal.date target) :=
          lookupProp_updProps_payload _ props dp (NVal.date target) hpay
        refine ⟨⟨?_, ?_⟩, ?_, ?_⟩
        · unfold pagesCreate
          rw [List.map_append]
          rw [List.nodup_append]
          refine ⟨hinv.1, List.nodup_singleton _, ?_⟩
          intro x hx hx2
          simp only [List.map_cons, List.map_nil, List.mem_singleton] at hx2
          subst hx2
          exact hfresh hx
        · intro t
          unfold pagesCreate
          rw [List.countP_append]
          by_cases hnp : decide (lookupProp
              ({ id := nid, icon := some "😴",
                 props := updProps [(tp, NVal.title ("Sleep " ++ target))] props
               } : SleepPage).props dp = some (NVal.date t)) = true
          · have hval := of_decide_eq_true hnp
            rw [hlooknp] at hval
            injection hval with hval2
            injection hval2 with hval3
            subst hval3
            have hzero : (sdb.countP fun p =>
                decide (lookupProp p.props dp = some (NVal.date target))) = 0 := by
              rw [List.countP_eq_zero]
              intro x hx
              unfold query_by_date at hq
              rw [Option.map_eq_none'] at hq
              exact List.find?_eq_none.mp hq x hx
            rw [hzero]
            simp [List.countP_cons, hlooknp]
          · have hzero2 : (List.countP (fun p : SleepPage =>
                decide (lookupProp p.props dp = some (NVal.date t)))
                [(⟨nid, some "😴",
                   updProps [(tp, NVal.title ("Sleep " ++ target))] props⟩ : SleepPage)]) = 0 := by
              rw [List.countP_eq_zero]
              intro x hx
              simp only [List.mem_singleton] at hx
              subst hx
              exact fun h => hnp h
            rw [hzero2]
            have := hinv.2 t
            omega
        · first
            | exact ⟨fun _ => rfl, fun _ => rfl⟩
            | trivial
        · intro h
          exact absurd rfl h

/-- Witness for `c9_lookup_before_write_uniqueness` at concrete inputs:
a create into an empty steps database and a create into an empty sleep
database both preserve the uniqueness invariant. -/
theorem c9_lookup_before_write_uniqueness_witness :
    StepsInv (create_daily_steps [] 1 recB2)
    ∧ SleepInv "Date"
        (syncSleep [] "Name" "Date" "2024-03-01" [("Date", NVal.date "2024-03-01")] 0).1 :=
  ⟨(c9_lookup_before_write_uniqueness.1 okEnv recB2 1 [] (create_daily_steps [] 1 recB2)
      SyncAction.created ⟨List.nodup_nil, fun d t => by simp⟩ (by simp) (by rfl)).1,
   (c9_lookup_before_write_uniqueness.2 [] "Name" "Date" "2024-03-01"
      [("Date", NVal.date "2024-03-01")] 0 ⟨List.nodup_nil, fun t => by simp⟩ (by simp)
      (by rfl)).1⟩

end GarminNotion
